import Mathlib

/-!
Verification of the ESP32 distance-telemetry agent
(`src/semester2/final_exam_embedded/solution/esp32.ino`).

The sketch connects to WiFi, connects to an MQTT broker, and then loops:
sample the HC-SR04 distance sensor, run a WiFi health check, either run the
recovery sequence (reconnect WiFi, then MQTT) or encode the reading as JSON
and publish it.

The embedding below is a shallow model of that sketch.  External
collaborators (the WiFi stack, the PubSubClient MQTT library, the HC-SR04
driver) are modelled as environment records supplying the values the sketch
reads from them; everything the sketch itself computes is translated
function-by-function, keeping the source names (`connectToWiFi`,
`connectToMqtt`, `healthCheck`, `sendJsonToMqttBroker`, `setup`, `loop`).
-/

namespace Esp32

/-! ## Configuration (the `const` config variables of the sketch) -/

/-- The compile-time configuration surface of the sketch: the `const`
globals `wifi_essid`, `wifi_key`, `wifi_password`, `mqtt_server`,
`mqtt_port`, `mqtt_topic`, `mqtt_user`, `mqtt_password`,
`json_device_name`, `json_resend_timeout`. -/
structure Config where
  wifi_essid : String
  wifi_key : Nat
  wifi_password : String
  mqtt_server : String
  mqtt_port : Nat
  mqtt_topic : String
  mqtt_user : String
  mqtt_password : String
  json_device_name : String
  json_resend_timeout : Nat
deriving DecidableEq

/-- The concrete configuration values hard-coded in the sketch
(`KEY_WPA_PSK = 2`). -/
def sourceConfig : Config :=
  { wifi_essid := "esp32"
    wifi_key := 2
    wifi_password := "cisco123"
    mqtt_server := "public.mqtthq.com"
    mqtt_port := 1883
    mqtt_topic := "garage_sensor"
    mqtt_user := ""
    mqtt_password := ""
    json_device_name := "ESP32"
    json_resend_timeout := 1000 }

/-! ## Signal quality classifier

The RSSI if-chain printed inside `connectToWiFi` (lines 178-192 of the
sketch). -/

/-- The five quality tiers the sketch prints for an RSSI value. -/
inductive Quality where
  | amazing
  | veryGood
  | okay
  | notGood
  | unusable
deriving DecidableEq

/-- Embedding of the RSSI if-chain of `connectToWiFi`:
`rssi > -67` Amazing, else `rssi > -70` Very Good, else `rssi > -80` Okay,
else `rssi > -90` Not Good, else Unusable. -/
def signalQuality (rssi : Int) : Quality :=
  if rssi > -67 then .amazing
  else if rssi > -70 then .veryGood
  else if rssi > -80 then .okay
  else if rssi > -90 then .notGood
  else .unusable

/-! ## MQTT failure classification

The `switch (broker_response)` of `connectToMqtt` (lines 234-265). -/

/-- The failure labels printed by `connectToMqtt` for each broker status
code, plus the `default` branch. -/
inductive MqttError where
  | connectionTimeout
  | connectionLost
  | connectFailed
  | disconnectedCleanly
  | badProtocolVersion
  | badClientId
  | serverUnavailable
  | badCredentials
  | unauthorized
  | unknown
deriving DecidableEq

/-- Embedding of the `switch (broker_response)` classification in
`connectToMqtt`. -/
def mqttStateLabel (code : Int) : MqttError :=
  if code = -4 then .connectionTimeout
  else if code = -3 then .connectionLost
  else if code = -2 then .connectFailed
  else if code = -1 then .disconnectedCleanly
  else if code = 1 then .badProtocolVersion
  else if code = 2 then .badClientId
  else if code = 3 then .serverUnavailable
  else if code = 4 then .badCredentials
  else if code = 5 then .unauthorized
  else .unknown

/-! ## Claim theorems: classifier and failure table -/

/-- C3: for every signed integer signal strength `s`, `signalQuality`
returns exactly one tier, with the exclusive lower bounds of the source
if-chain: Amazing iff `s > -67`, Very Good iff `-70 < s <= -67`, Okay iff
`-80 < s <= -70`, Not Good iff `-90 < s <= -80`, Unusable iff `s <= -90`;
in particular `signalQuality (-67) = veryGood` and
`signalQuality (-90) = unusable`. -/
theorem claim_C3 :
    (∀ s : Int,
      (signalQuality s = .amazing ↔ -67 < s) ∧
      (signalQuality s = .veryGood ↔ -70 < s ∧ s ≤ -67) ∧
      (signalQuality s = .okay ↔ -80 < s ∧ s ≤ -70) ∧
      (signalQuality s = .notGood ↔ -90 < s ∧ s ≤ -80) ∧
      (signalQuality s = .unusable ↔ s ≤ -90)) ∧
    signalQuality (-67) = .veryGood ∧ signalQuality (-90) = .unusable := by
  refine ⟨fun s => ?_, by decide, by decide⟩
  unfold signalQuality
  split_ifs with h1 h2 h3 h4 <;>
    refine ⟨?_, ?_, ?_, ?_, ?_⟩ <;> simp <;> omega

/-- C4: the session-connect failure classification maps each broker status
code exactly per the fixed table of the source `switch`: `-4` timeout, `-3`
lost, `-2` connect-failed, `-1` disconnected-cleanly, `1` bad protocol,
`2` bad client id, `3` server unavailable, `4` bad credentials, `5`
unauthorized, and every other code to unknown. -/
theorem claim_C4 :
    mqttStateLabel (-4) = .connectionTimeout ∧
    mqttStateLabel (-3) = .connectionLost ∧
    mqttStateLabel (-2) = .connectFailed ∧
    mqttStateLabel (-1) = .disconnectedCleanly ∧
    mqttStateLabel 1 = .badProtocolVersion ∧
    mqttStateLabel 2 = .badClientId ∧
    mqttStateLabel 3 = .serverUnavailable ∧
    mqttStateLabel 4 = .badCredentials ∧
    mqttStateLabel 5 = .unauthorized ∧
    ∀ c : Int, c ≠ -4 → c ≠ -3 → c ≠ -2 → c ≠ -1 →
      c ≠ 1 → c ≠ 2 → c ≠ 3 → c ≠ 4 → c ≠ 5 →
      mqttStateLabel c = .unknown := by
  refine ⟨by decide, by decide, by decide, by decide, by decide, by decide,
    by decide, by decide, by decide, fun c h4 h3 h2 h1 p1 p2 p3 p4 p5 => ?_⟩
  unfold mqttStateLabel
  split_ifs <;> first | rfl | omega

/-- C4 witness: the default branch of the table at the concrete unmapped
code `7`. -/
theorem claim_C4_witness : mqttStateLabel 7 = .unknown :=
  claim_C4.2.2.2.2.2.2.2.2.2 7 (by decide) (by decide) (by decide)
    (by decide) (by decide) (by decide) (by decide) (by decide) (by decide)

/-! ## Link Manager: `connectToWiFi`

The sketch polls `WiFi.status()` in a `while` loop: each iteration delays
500 ms and increments `wait_counter`, breaking once the counter reaches 20;
afterwards `WiFi.status()` is consulted once more to choose the success or
failure branch.  The WiFi stack is modelled by a `LinkEnv`: `status k` is
the value of `WiFi.status() == WL_CONNECTED` after `k` completed 500 ms
delays, and `ip`, `mac`, `rssi` are the identity values the stack reports
on the success path. -/

/-- Environment supplied by the WiFi collaborator during one
`connectToWiFi` call. -/
structure LinkEnv where
  status : Nat → Bool
  ssid : String
  ip : Nat
  mac : List Nat
  rssi : Int

/-- The identity report the success branch of `connectToWiFi` emits:
SSID, IP address, MAC bytes, RSSI and its derived quality tier. -/
structure LinkReport where
  ssid : String
  ip : Nat
  mac : List Nat
  rssi : Int
  quality : Quality
deriving DecidableEq

/-- Result of one `connectToWiFi` call: the returned status byte
(`0` success, `1` failure), the number of 500 ms delays performed, the
total blocked time in ms, and the identity report of the success branch. -/
structure LinkResult where
  code : Nat
  delays : Nat
  waitMs : Nat
  report : Option LinkReport
deriving DecidableEq

/-- The `while (WiFi.status() != WL_CONNECTED)` wait loop of
`connectToWiFi`, counter starting at `c`: check the status, otherwise
delay 500 ms, increment, break at 20.  Returns the number of 500 ms delays
performed when the loop exits.  `fuel` is `20 - c`, enough for the bounded
loop never to hit the `0` case when started as in the sketch. -/
def wifiWaitAux (status : Nat → Bool) : Nat → Nat → Nat
  | c, 0 => c
  | c, fuel + 1 =>
    if status c then c
    else if c + 1 ≥ 20 then c + 1
    else wifiWaitAux status (c + 1) fuel

/-- Embedding of `connectToWiFi`: run the bounded wait loop from counter 0,
then branch on a final status check.  Success populates the identity
report (IP, MAC, RSSI, quality tier via `signalQuality`) and returns 0;
otherwise the call returns 1 with no report.  Each loop iteration performs
one `delay(500)`, so the blocked time is `500 * delays`. -/
def connectToWiFi (cfg : Config) (env : LinkEnv) : LinkResult :=
  let d := wifiWaitAux env.status 0 20
  if env.status d then
    { code := 0
      delays := d
      waitMs := 500 * d
      report := some
        { ssid := env.ssid
          ip := env.ip
          mac := env.mac
          rssi := env.rssi
          quality := signalQuality env.rssi } }
  else
    { code := 1, delays := d, waitMs := 500 * d, report := none }

/-- The wait loop never moves the counter past 20 and never below its
start. -/
theorem wifiWaitAux_le (status : Nat → Bool) :
    ∀ fuel c, c + fuel ≤ 20 → wifiWaitAux status c fuel ≤ 20 := by
  intro fuel
  induction fuel with
  | zero =>
    intro c hc
    simp only [wifiWaitAux]
    omega
  | succ n ih =>
    intro c hc
    unfold wifiWaitAux
    split
    · omega
    · split
      · omega
      · exact ih (c + 1) (by omega)

/-- Where the wait loop stops, the status holds iff it holds somewhere in
the window the loop still inspects. -/
theorem wifiWaitAux_status (status : Nat → Bool) :
    ∀ fuel c, c + fuel = 20 →
      (status (wifiWaitAux status c fuel) = true ↔
        ∃ k, c ≤ k ∧ k ≤ 20 ∧ status k = true) := by
  intro fuel
  induction fuel with
  | zero =>
    intro c hc
    constructor
    · intro h
      exact ⟨c, le_refl c, by omega, by simpa [wifiWaitAux] using h⟩
    · rintro ⟨k, hk1, hk2, hk3⟩
      have hkc : k = c := by omega
      subst hkc
      simpa [wifiWaitAux] using hk3
  | succ n ih =>
    intro c hc
    unfold wifiWaitAux
    by_cases hs : status c = true
    · rw [if_pos hs]
      exact ⟨fun _ => ⟨c, le_refl c, by omega, hs⟩, fun _ => hs⟩
    · rw [if_neg hs]
      by_cases hb : c + 1 ≥ 20
      · rw [if_pos hb]
        have hc19 : c = 19 := by omega
        subst hc19
        constructor
        · intro h; exact ⟨20, by omega, by omega, h⟩
        · rintro ⟨k, hk1, hk2, hk3⟩
          have hk : k = 19 ∨ k = 20 := by omega
          rcases hk with h19 | h20
          · subst h19; exact absurd hk3 hs
          · subst h20; exact hk3
      · rw [if_neg hb]
        rw [ih (c + 1) (by omega)]
        constructor
        · rintro ⟨k, hk1, hk2, hk3⟩; exact ⟨k, by omega, hk2, hk3⟩
        · rintro ⟨k, hk1, hk2, hk3⟩
          refine ⟨k, ?_, hk2, hk3⟩
          rcases Nat.eq_or_lt_of_le hk1 with h | h
          · subst h; exact absurd hk3 hs
          · omega

/-- C5: one `connectToWiFi` call performs at most 20 polls of 500 ms each
(so it blocks at most 10000 ms, at a fixed 500 ms interval); it returns the
failure status 1 with no report when the link does not come up within that
bound, and otherwise returns status 0 with the populated identity report
(address, hardware id, signal strength and the derived quality tier). -/
theorem claim_C5 (cfg : Config) (env : LinkEnv) :
    (connectToWiFi cfg env).delays ≤ 20 ∧
    (connectToWiFi cfg env).waitMs = 500 * (connectToWiFi cfg env).delays ∧
    (connectToWiFi cfg env).waitMs ≤ 10000 ∧
    ((connectToWiFi cfg env).code = 0 ↔ ∃ k ≤ 20, env.status k = true) ∧
    ((connectToWiFi cfg env).code = 0 →
      (connectToWiFi cfg env).report = some
        { ssid := env.ssid, ip := env.ip, mac := env.mac, rssi := env.rssi
          quality := signalQuality env.rssi }) ∧
    ((connectToWiFi cfg env).code ≠ 0 →
      (connectToWiFi cfg env).code = 1 ∧
      (connectToWiFi cfg env).report = none) := by
  have hle : wifiWaitAux env.status 0 20 ≤ 20 :=
    wifiWaitAux_le env.status 20 0 (by omega)
  have hst := wifiWaitAux_status env.status 20 0 (by omega)
  by_cases h : env.status (wifiWaitAux env.status 0 20) = true
  · have hc : connectToWiFi cfg env =
        { code := 0
          delays := wifiWaitAux env.status 0 20
          waitMs := 500 * wifiWaitAux env.status 0 20
          report := some
            { ssid := env.ssid, ip := env.ip, mac := env.mac, rssi := env.rssi
              quality := signalQuality env.rssi } } := by
      unfold connectToWiFi
      rw [if_pos h]
    rw [hc]
    refine ⟨hle, rfl, ?_, ?_, fun _ => rfl, fun hne => absurd rfl hne⟩
    · show 500 * wifiWaitAux env.status 0 20 ≤ 10000
      omega
    constructor
    · intro _
      rcases hst.mp h with ⟨k, _, hk2, hk3⟩
      exact ⟨k, hk2, hk3⟩
    · intro _; rfl
  · have hc : connectToWiFi cfg env =
        { code := 1
          delays := wifiWaitAux env.status 0 20
          waitMs := 500 * wifiWaitAux env.status 0 20
          report := none } := by
      unfold connectToWiFi
      rw [if_neg h]
    rw [hc]
    refine ⟨hle, rfl, ?_, ?_, ?_, fun _ => ⟨rfl, rfl⟩⟩
    · show 500 * wifiWaitAux env.status 0 20 ≤ 10000
      omega
    · constructor
      · intro h0; exact absurd h0 one_ne_zero
      · rintro ⟨k, hk1, hk2⟩
        exact absurd (hst.mpr ⟨k, by omega, hk1, hk2⟩) h
    · intro h0; exact absurd h0 one_ne_zero

/-- C5 witness: a link that comes up after 3 polls yields success with the
full identity report, within the poll bound. -/
theorem claim_C5_witness :
    ((connectToWiFi sourceConfig
        { status := fun k => decide (3 ≤ k), ssid := "esp32", ip := 167772161
          mac := [222, 173, 190, 239, 0, 1], rssi := -68 }).delays ≤ 20) ∧
    ((connectToWiFi sourceConfig
        { status := fun k => decide (3 ≤ k), ssid := "esp32", ip := 167772161
          mac := [222, 173, 190, 239, 0, 1], rssi := -68 }).code = 0) := by
  have h := claim_C5 sourceConfig
    { status := fun k => decide (3 ≤ k), ssid := "esp32", ip := 167772161
      mac := [222, 173, 190, 239, 0, 1], rssi := -68 }
  exact ⟨h.1, h.2.2.2.1.mpr ⟨3, by decide, by decide⟩⟩

/-! ## Session Manager: `connectToMqtt`

The sketch calls `mqtt_client.connect(mqtt_topic, mqtt_user,
mqtt_password)` — note the first argument, the broker client identifier,
is the publish topic.  On failure it reads `mqtt_client.state()` and
classifies it with `mqttStateLabel`. -/

/-- Environment supplied by the broker client during one `connectToMqtt`
call: whether `mqtt_client.connect(...)` returns true, and the value
`mqtt_client.state()` reports on the failure path. -/
structure MqttEnv where
  connectOk : Bool
  stateCode : Int

/-- Result of one `connectToMqtt` call: the returned status byte
(`0` success, `1` failure), the arguments the sketch passed to
`mqtt_client.connect`, and the failure classification printed on the
failure branch. -/
structure MqttResult where
  code : Nat
  clientId : String
  user : String
  password : String
  errorLabel : Option MqttError
deriving DecidableEq

/-- Embedding of `connectToMqtt`: hand `mqtt_topic` to the broker as the
client identifier (exactly as the source does), return 0 on success, else
classify `mqtt_client.state()` with the fixed table and return 1. -/
def connectToMqtt (cfg : Config) (env : MqttEnv) : MqttResult :=
  if env.connectOk then
    { code := 0, clientId := cfg.mqtt_topic, user := cfg.mqtt_user
      password := cfg.mqtt_password, errorLabel := none }
  else
    { code := 1, clientId := cfg.mqtt_topic, user := cfg.mqtt_user
      password := cfg.mqtt_password
      errorLabel := some (mqttStateLabel env.stateCode) }

/-! ## The session-connect retry loop

Two textually identical retry loops in the sketch drive `connectToMqtt`:
at startup (`setup`, lines 317-321) and in the mid-run recovery branch
(`loop`, lines 341-345).  Both read
`e = connectToMqtt(); while (e) { delay(5000); e = connectToMqtt(); }`.
`mqttRetryTrace env k t fuel` runs that loop with attempt outcomes
`env : Nat → Bool` (the result of the `k`-th `connectToMqtt` call),
starting at attempt index `k` and simulated clock `t` ms; it returns the
list of `(time, attemptIndex)` pairs of the attempts made and whether the
loop exited with success.  `fuel` bounds the observation of the otherwise
unbounded loop; the loop itself has no attempt cap. -/
def mqttRetryTrace (env : Nat → Bool) : Nat → Nat → Nat → List (Nat × Nat) × Bool
  | _, _, 0 => ([], false)
  | k, t, fuel + 1 =>
    if env k then ([(t, k)], true)
    else
      let rest := mqttRetryTrace env (k + 1) (t + 5000) fuel
      ((t, k) :: rest.1, rest.2)

/-- Unfolding: exhausted fuel. -/
theorem mqttRetryTrace_zero (env : Nat → Bool) (k t : Nat) :
    mqttRetryTrace env k t 0 = ([], false) := rfl

/-- Unfolding: a successful attempt ends the loop. -/
theorem mqttRetryTrace_succ_pos (env : Nat → Bool) (k t fuel : Nat)
    (h : env k = true) :
    mqttRetryTrace env k t (fuel + 1) = ([(t, k)], true) := by
  unfold mqttRetryTrace
  rw [if_pos h]

/-- Unfolding: a failed attempt delays 5000 ms and retries. -/
theorem mqttRetryTrace_succ_neg (env : Nat → Bool) (k t fuel : Nat)
    (h : env k = false) :
    mqttRetryTrace env k t (fuel + 1) =
      ((t, k) :: (mqttRetryTrace env (k + 1) (t + 5000) fuel).1,
        (mqttRetryTrace env (k + 1) (t + 5000) fuel).2) := by
  conv_lhs => unfold mqttRetryTrace
  rw [if_neg (by simp [h])]

/-- Every attempt the retry loop makes: the `i`-th recorded attempt is
attempt index `k + i` at simulated time `t + 5000 * i`. -/
theorem mqttRetryTrace_get (env : Nat → Bool) :
    ∀ fuel k t i, i < (mqttRetryTrace env k t fuel).1.length →
      (mqttRetryTrace env k t fuel).1[i]? = some (t + 5000 * i, k + i) := by
  intro fuel
  induction fuel with
  | zero => intro k t i h; simp [mqttRetryTrace_zero] at h
  | succ n ih =>
    intro k t i h
    by_cases hk : env k = true
    · rw [mqttRetryTrace_succ_pos env k t n hk] at h ⊢
      simp only [List.length_cons, List.length_nil] at h
      interval_cases i
      simp
    · have hk0 : env k = false := by simpa using hk
      rw [mqttRetryTrace_succ_neg env k t n hk0] at h ⊢
      simp only [List.length_cons] at h
      match i with
      | 0 => simp
      | i + 1 =>
        have hlt : i < (mqttRetryTrace env (k + 1) (t + 5000) n).1.length := by
          omega
        have hget := ih (k + 1) (t + 5000) i hlt
        simp only [List.getElem?_cons_succ]
        rw [hget]
        simp only [Option.some.injEq, Prod.mk.injEq]
        constructor <;> omega

/-- While every attempt fails, the loop keeps attempting: with `fuel`
observed iterations and all outcomes false, it records exactly `fuel`
attempts and has not given up (no attempt-count bound). -/
theorem mqttRetryTrace_all_fail (env : Nat → Bool) :
    ∀ fuel k t, (∀ j, j < fuel → env (k + j) = false) →
      (mqttRetryTrace env k t fuel).1.length = fuel ∧
      (mqttRetryTrace env k t fuel).2 = false := by
  intro fuel
  induction fuel with
  | zero => intro k t _; simp [mqttRetryTrace_zero]
  | succ n ih =>
    intro k t hfail
    have hk : env k = false := by simpa using hfail 0 (by omega)
    have hrec := ih (k + 1) (t + 5000) (fun j hj => by
      have hx := hfail (j + 1) (by omega)
      have e : k + 1 + j = k + (j + 1) := by omega
      rw [e]
      exact hx)
    rw [mqttRetryTrace_succ_neg env k t n hk]
    simp only [List.length_cons]
    exact ⟨by rw [hrec.1], hrec.2⟩

/-- If the first success is the `n`-th attempt, the loop makes exactly
`n + 1` attempts and exits with success (retries continue until a connect
succeeds). -/
theorem mqttRetryTrace_first_success (env : Nat → Bool) :
    ∀ fuel k t n, n < fuel → env (k + n) = true →
      (∀ j, j < n → env (k + j) = false) →
      (mqttRetryTrace env k t fuel).1.length = n + 1 ∧
      (mqttRetryTrace env k t fuel).2 = true := by
  intro fuel
  induction fuel with
  | zero => intro k t n hn; omega
  | succ m ih =>
    intro k t n hn hsucc hfail
    match n with
    | 0 =>
      have hk : env k = true := by simpa using hsucc
      rw [mqttRetryTrace_succ_pos env k t m hk]
      simp
    | n + 1 =>
      have hk : env k = false := by simpa using hfail 0 (by omega)
      have hs : env (k + 1 + n) = true := by
        have e : k + 1 + n = k + (n + 1) := by omega
        rw [e]
        exact hsucc
      have hrec := ih (k + 1) (t + 5000) n (by omega) hs
        (fun j hj => by
          have hx := hfail (j + 1) (by omega)
          have e : k + 1 + j = k + (j + 1) := by omega
          rw [e]
          exact hx)
      rw [mqttRetryTrace_succ_neg env k t m hk]
      simp only [List.length_cons]
      exact ⟨by rw [hrec.1], hrec.2⟩

/-- C6: in the session-connect retry loop (the shared shape of the startup
loop in `setup` and the mid-run recovery loop in `loop`), consecutive
attempts are separated by exactly the fixed `delay(5000)` — so by at least
5000 ms — and the loop has no attempt-count bound: while attempts keep
failing it keeps retrying (one attempt per observed iteration), stopping
only when an attempt succeeds, after exactly `n + 1` attempts when the
first success is attempt `n`. -/
theorem claim_C6 (env : Nat → Bool) (k t fuel : Nat) :
    (∀ i a b, (mqttRetryTrace env k t fuel).1[i]? = some a →
      (mqttRetryTrace env k t fuel).1[i + 1]? = some b →
      b.1 = a.1 + 5000) ∧
    ((∀ j, j < fuel → env (k + j) = false) →
      (mqttRetryTrace env k t fuel).1.length = fuel ∧
      (mqttRetryTrace env k t fuel).2 = false) ∧
    (∀ n, n < fuel → env (k + n) = true → (∀ j, j < n → env (k + j) = false) →
      (mqttRetryTrace env k t fuel).1.length = n + 1 ∧
      (mqttRetryTrace env k t fuel).2 = true) := by
  refine ⟨fun i a b ha hb => ?_, mqttRetryTrace_all_fail env fuel k t,
    fun n hn => mqttRetryTrace_first_success env fuel k t n hn⟩
  have h2 : i + 1 < (mqttRetryTrace env k t fuel).1.length := by
    by_contra hc
    rw [List.getElem?_eq_none (by omega)] at hb
    cases hb
  have h1 : i < (mqttRetryTrace env k t fuel).1.length := by omega
  rw [mqttRetryTrace_get env fuel k t i h1] at ha
  rw [mqttRetryTrace_get env fuel k t (i + 1) h2] at hb
  cases ha
  cases hb
  simp
  omega

/-- C6 witness: attempts failing twice then succeeding give three attempts
at simulated times 0, 5000 and 10000 ms, 5000 ms apart. -/
theorem claim_C6_witness :
    (mqttRetryTrace (fun k => decide (2 ≤ k)) 0 0 10).1.length = 3 ∧
    (mqttRetryTrace (fun k => decide (2 ≤ k)) 0 0 10).2 = true ∧
    ((mqttRetryTrace (fun k => decide (2 ≤ k)) 0 0 10).1[1]? = some (5000, 1) →
      (mqttRetryTrace (fun k => decide (2 ≤ k)) 0 0 10).1[2]? =
        some (10000, 2) →
      (10000 : Nat) = 5000 + 5000) := by
  have h := claim_C6 (fun k => decide (2 ≤ k)) 0 0 10
  have hs := h.2.2 2 (by decide) (by decide)
    (fun j hj => by interval_cases j <;> decide)
  exact ⟨hs.1, hs.2, fun ha hb => h.1 1 (5000, 1) (10000, 2) ha hb⟩

/-! ## Telemetry Encoder

`sendJsonToMqttBroker` builds a two-field JSON document — `json_data
["device"] = json_device_name; json_data["distance_cm"] = hcsr_value` —
and serializes it (ArduinoJson).  The wire encoding is modelled on
`List Char`: the fixed frame around the escaped device name and the
decimal rendering of the integer.  ArduinoJson escapes exactly `"`, `\\`
and the control characters BS, FF, LF, CR, TAB in strings, which
`escapeChar` mirrors. -/

/-- The closing brace character of the JSON frame. -/
def closeBrace : Char := '\x7d'

/-- ArduinoJson string escaping for one character. -/
def escapeChar (c : Char) : List Char :=
  if c = '"' then ['\\', '"']
  else if c = '\\' then ['\\', '\\']
  else if c = '\x08' then ['\\', 'b']
  else if c = '\x0c' then ['\\', 'f']
  else if c = '\n' then ['\\', 'n']
  else if c = '\x0d' then ['\\', 'r']
  else if c = '\t' then ['\\', 't']
  else [c]

/-- ArduinoJson string escaping, character by character. -/
def escapeString : List Char → List Char
  | [] => []
  | c :: rest => escapeChar c ++ escapeString rest

/-- The decimal digit characters, low digit last.  `fuel` bounds the
division recursion; `natRepr` supplies enough. -/
def natReprAux : Nat → Nat → List Char
  | 0, _ => []
  | fuel + 1, n =>
    if n = 0 then []
    else natReprAux fuel (n / 10) ++ [Char.ofNat (48 + n % 10)]

/-- Decimal rendering of a natural number. -/
def natRepr (n : Nat) : List Char :=
  if n = 0 then ['0'] else natReprAux (n + 1) n

/-- Decimal rendering of a signed integer (ArduinoJson renders
`hcsr_value`, a C `int`, this way). -/
def intRepr (v : Int) : List Char :=
  if v < 0 then '-' :: natRepr v.natAbs else natRepr v.toNat

/-- The fixed frame before the device name: an opening brace, then
`"device":"`. -/
def jsonPrefix : List Char := '\x7b' :: "\"device\":\"".data

/-- The fixed frame between the name and the value, after the name's
closing quote: `,"distance_cm":`. -/
def jsonMidTail : List Char := ",\"distance_cm\":".data

/-- The full frame between name and value, starting with the name's
closing quote. -/
def jsonMid : List Char := '"' :: jsonMidTail

/-- The serialized form of the two-field document
`\x7b"device": name, "distance_cm": value\x7d` that
`sendJsonToMqttBroker` builds, fields in insertion order. -/
def encodeJson (name : String) (value : Int) : List Char :=
  jsonPrefix ++ escapeString name.data ++ jsonMid ++ intRepr value ++
    [closeBrace]

/-! ### Decoder, modelled from the spec

Modelled from the spec: the repository publishes the message and never
decodes it; the spec's encode round-trip property (section 8) needs the
inverse `decode`, the standard JSON read of the two-field record.  The
decoder below accepts exactly the frame `encodeJson` produces — an
opening brace, the `device` key, a JSON string, the `distance_cm` key, a
decimal integer, a closing brace — and returns the name and value. -/

/-- Strip an expected literal from the front of the input. -/
def dropPfx : List Char → List Char → Option (List Char)
  | [], ys => some ys
  | _ :: _, [] => none
  | x :: xs, y :: ys => if x = y then dropPfx xs ys else none

/-- Undo `escapeChar` on the character following a backslash. -/
def unescapeChar (c : Char) : Char :=
  if c = 'b' then '\x08'
  else if c = 'f' then '\x0c'
  else if c = 'n' then '\n'
  else if c = 'r' then '\x0d'
  else if c = 't' then '\t'
  else c

/-- Read a JSON string body up to its closing quote, undoing escapes;
returns the content and the input after the quote. -/
def parseJsonString : List Char → Option (List Char × List Char)
  | [] => none
  | c :: rest =>
    if c = '"' then some ([], rest)
    else if c = '\\' then
      match rest with
      | [] => none
      | e :: rest2 =>
        (parseJsonString rest2).map fun p => (unescapeChar e :: p.1, p.2)
    else (parseJsonString rest).map fun p => (c :: p.1, p.2)

/-- Numeric value of a decimal digit character. -/
def charToDigit (c : Char) : Nat := c.toNat - 48

/-- Recognize a decimal digit character. -/
def isDigitChar (c : Char) : Bool :=
  decide (48 ≤ c.toNat) && decide (c.toNat ≤ 57)

/-- Read a nonempty all-digit character list as a natural number. -/
def parseNatChars (cs : List Char) : Option Nat :=
  if cs = [] then none
  else if cs.all isDigitChar then
    some (cs.foldl (fun acc c => acc * 10 + charToDigit c) 0)
  else none

/-- Read an optionally negated decimal integer. -/
def parseIntChars : List Char → Option Int
  | [] => none
  | c :: rest =>
    if c = '-' then (parseNatChars rest).map fun n => -(Int.ofNat n)
    else (parseNatChars (c :: rest)).map Int.ofNat

/-- Decode the two-field telemetry frame: fixed keys in fixed order, a
JSON string for `device`, a decimal integer for `distance_cm`. -/
def decodeJson (s : List Char) : Option (String × Int) := do
  let r1 ← dropPfx jsonPrefix s
  let (nameChars, r2) ← parseJsonString r1
  let r3 ← dropPfx jsonMidTail r2
  let numChars := r3.takeWhile fun c => c != closeBrace
  if r3.drop numChars.length = [closeBrace] then
    match parseIntChars numChars with
    | some v => some (String.mk nameChars, v)
    | none => none
  else none

/-! ### Round-trip lemmas -/

/-- Stripping a literal it was just prepended to succeeds. -/
theorem dropPfx_append : ∀ xs ys : List Char, dropPfx xs (xs ++ ys) = some ys := by
  intro xs
  induction xs with
  | nil => intro ys; rfl
  | cons x xs ih =>
    intro ys
    simp only [List.cons_append]
    unfold dropPfx
    rw [if_pos rfl]
    exact ih ys

/-- Unfolding: the closing quote ends the string body. -/
theorem parseJsonString_quote (rest : List Char) :
    parseJsonString ('"' :: rest) = some ([], rest) := by
  rw [parseJsonString.eq_def]
  rfl

/-- Unfolding: a backslash consumes the next character through
`unescapeChar`. -/
theorem parseJsonString_esc (e : Char) (rest2 : List Char) :
    parseJsonString ('\\' :: e :: rest2) =
      (parseJsonString rest2).map fun p => (unescapeChar e :: p.1, p.2) := by
  rw [parseJsonString.eq_def]
  rfl

/-- Unfolding: any other character is literal content. -/
theorem parseJsonString_lit (c : Char) (rest : List Char)
    (h1 : c ≠ '"') (h2 : c ≠ '\\') :
    parseJsonString (c :: rest) =
      (parseJsonString rest).map fun p => (c :: p.1, p.2) := by
  cases rest with
  | nil => rw [parseJsonString.eq_2, if_neg h1, if_neg h2]
  | cons e rest2 => rw [parseJsonString.eq_3, if_neg h1, if_neg h2]

/-- Reading back one escaped character prepends exactly that
character. -/
theorem parse_escapeChar (c : Char) (ts : List Char) :
    parseJsonString (escapeChar c ++ ts) =
      (parseJsonString ts).map fun p => (c :: p.1, p.2) := by
  unfold escapeChar
  split_ifs with h1 h2 h3 h4 h5 h6 h7
  · subst h1
    simp only [List.cons_append, List.nil_append, parseJsonString_esc]
    simp [unescapeChar]
  · subst h2
    simp only [List.cons_append, List.nil_append, parseJsonString_esc]
    simp [unescapeChar]
  · subst h3
    simp only [List.cons_append, List.nil_append, parseJsonString_esc]
    simp [unescapeChar]
  · subst h4
    simp only [List.cons_append, List.nil_append, parseJsonString_esc]
    simp [unescapeChar]
  · subst h5
    simp only [List.cons_append, List.nil_append, parseJsonString_esc]
    simp [unescapeChar]
  · subst h6
    simp only [List.cons_append, List.nil_append, parseJsonString_esc]
    simp [unescapeChar]
  · subst h7
    simp only [List.cons_append, List.nil_append, parseJsonString_esc]
    simp [unescapeChar]
  · simp only [List.cons_append, List.nil_append]
    exact parseJsonString_lit c ts h1 h2

/-- Reading back an escaped string up to a closing quote recovers it. -/
theorem parse_escapeString (s : List Char) (rest : List Char) :
    parseJsonString (escapeString s ++ '"' :: rest) = some (s, rest) := by
  induction s with
  | nil => simp [escapeString, parseJsonString_quote]
  | cons c s ih =>
    simp only [escapeString, List.append_assoc]
    rw [parse_escapeChar, ih]
    rfl

/-- Digit characters round-trip through `charToDigit`. -/
theorem charToDigit_ofNat (m : Nat) (h : m < 10) :
    charToDigit (Char.ofNat (48 + m)) = m := by
  interval_cases m <;> decide

/-- Digit characters are recognized as digits. -/
theorem isDigitChar_ofNat (m : Nat) (h : m < 10) :
    isDigitChar (Char.ofNat (48 + m)) = true := by
  interval_cases m <;> decide

/-- Every character `natReprAux` emits is a decimal digit character. -/
theorem natReprAux_digits :
    ∀ fuel n c, c ∈ natReprAux fuel n → ∃ m, m < 10 ∧ c = Char.ofNat (48 + m) := by
  intro fuel
  induction fuel with
  | zero => intro n c h; simp [natReprAux] at h
  | succ f ih =>
    intro n c h
    unfold natReprAux at h
    by_cases hn : n = 0
    · rw [if_pos hn] at h; simp at h
    · rw [if_neg hn] at h
      rcases List.mem_append.mp h with h1 | h2
      · exact ih (n / 10) c h1
      · refine ⟨n % 10, Nat.mod_lt n (by omega), ?_⟩
        simpa using h2
/-- Folding the digit characters of `natReprAux` back into a number. -/
theorem natReprAux_val :
    ∀ fuel n, n < 10 ^ fuel → ∀ acc,
      (natReprAux fuel n).foldl (fun a c => a * 10 + charToDigit c) acc =
        acc * 10 ^ (natReprAux fuel n).length + n := by
  intro fuel
  induction fuel with
  | zero =>
    intro n hn acc
    have hn0 : n = 0 := by simpa using hn
    subst hn0
    simp [natReprAux]
  | succ f ih =>
    intro n hn acc
    by_cases hz : n = 0
    · subst hz
      simp [natReprAux]
    · have hdiv : n / 10 < 10 ^ f := by
        rw [Nat.div_lt_iff_lt_mul (by omega)]
        calc n < 10 ^ (f + 1) := hn
        _ = 10 ^ f * 10 := by ring
      have hrw : natReprAux (f + 1) n =
          natReprAux f (n / 10) ++ [Char.ofNat (48 + n % 10)] := by
        simp only [natReprAux]
        rw [if_neg hz]
      rw [hrw]
      rw [List.foldl_append, ih (n / 10) hdiv acc]
      simp only [List.foldl_cons, List.foldl_nil, List.length_append,
        List.length_singleton]
      rw [charToDigit_ofNat (n % 10) (Nat.mod_lt n (by omega))]
      have hmod := Nat.div_add_mod n 10
      rw [pow_succ]
      ring_nf
      omega

/-- Every character of `natRepr` is a decimal digit character. -/
theorem natRepr_digits (n : Nat) :
    ∀ c ∈ natRepr n, isDigitChar c = true := by
  intro c hc
  unfold natRepr at hc
  by_cases hz : n = 0
  · rw [if_pos hz] at hc
    simp at hc
    subst hc
    decide
  · rw [if_neg hz] at hc
    rcases natReprAux_digits (n + 1) n c hc with ⟨m, hm, rfl⟩
    exact isDigitChar_ofNat m hm

/-- Reading the decimal rendering of a natural number back. -/
theorem parseNatChars_natRepr (n : Nat) : parseNatChars (natRepr n) = some n := by
  by_cases hz : n = 0
  · subst hz; decide
  · have hrw : natRepr n = natReprAux (n + 1) n := by
      unfold natRepr; rw [if_neg hz]
    have hne : natRepr n ≠ [] := by
      rw [hrw]
      unfold natReprAux
      rw [if_neg hz]
      simp
    have hall : (natRepr n).all isDigitChar = true :=
      List.all_eq_true.mpr fun c hc => natRepr_digits n c hc
    have hpow : n < 10 ^ (n + 1) :=
      lt_of_lt_of_le (Nat.lt_pow_self (by omega) n)
        (Nat.pow_le_pow_right (by omega) (Nat.le_succ n))
    unfold parseNatChars
    rw [if_neg hne, if_pos hall]
    rw [hrw, natReprAux_val (n + 1) n hpow 0]
    simp

/-- Reading the decimal rendering of an integer back. -/
theorem parseIntChars_intRepr (v : Int) : parseIntChars (intRepr v) = some v := by
  by_cases hneg : v < 0
  · have hrw : intRepr v = '-' :: natRepr v.natAbs := by
      unfold intRepr; rw [if_pos hneg]
    rw [hrw]
    simp only [parseIntChars]
    rw [if_pos trivial, parseNatChars_natRepr]
    simp only [Option.map_some', Option.some.injEq, Int.ofNat_eq_natCast]
    omega
  · have hrw : intRepr v = natRepr v.toNat := by
      unfold intRepr; rw [if_neg hneg]
    rw [hrw]
    have hne : natRepr v.toNat ≠ [] := by
      unfold natRepr
      by_cases h0 : v.toNat = 0
      · rw [if_pos h0]; simp
      · rw [if_neg h0]
        simp only [natReprAux]
        rw [if_neg h0]
        simp
    rcases List.exists_cons_of_ne_nil hne with ⟨c, rest, hcons⟩
    have hcdig : isDigitChar c = true :=
      natRepr_digits v.toNat c (by rw [hcons]; simp)
    have hcne : c ≠ '-' := by
      intro hceq
      subst hceq
      simp [isDigitChar] at hcdig
    rw [hcons]
    simp only [parseIntChars]
    rw [if_neg hcne, ← hcons, parseNatChars_natRepr]
    simp only [Option.map_some', Option.some.injEq, Int.ofNat_eq_natCast]
    omega

/-- `takeWhile` stops exactly at the first failing element appended after
an all-passing block, and `drop` then exposes the tail. -/
theorem takeWhile_append_stop (p : Char → Bool) :
    ∀ xs y ys, (∀ x ∈ xs, p x = true) → p y = false →
      (xs ++ y :: ys).takeWhile p = xs := by
  intro xs
  induction xs with
  | nil =>
    intro y ys _ hy
    simp [List.takeWhile, hy]
  | cons x xs ih =>
    intro y ys hall hy
    simp only [List.cons_append, List.takeWhile]
    rw [hall x (by simp)]
    simp only [List.cons.injEq, true_and]
    exact ih y ys (fun a ha => hall a (by simp [ha])) hy

/-- No character of an integer rendering is the closing brace. -/
theorem intRepr_ne_closeBrace (v : Int) :
    ∀ c ∈ intRepr v, (c != closeBrace) = true := by
  intro c hc
  have hdig : isDigitChar c = true ∨ c = '-' := by
    unfold intRepr at hc
    split at hc
    · rcases List.mem_cons.mp hc with h | h
      · exact Or.inr h
      · exact Or.inl (natRepr_digits _ c h)
    · exact Or.inl (natRepr_digits _ c hc)
  rcases hdig with h | h
  · simp only [bne_iff_ne, ne_eq]
    intro heq
    subst heq
    simp [isDigitChar, closeBrace] at h
  · subst h
    decide

/-- C8: for every device name and integer distance, the encoded message is
the two-field record with keys `device` and `distance_cm` in that fixed
order, decoding recovers exactly the original name and value, and
`encodeJson "ESP32" 42` is the concrete message
`\x7b"device":"ESP32","distance_cm":42\x7d`. -/
theorem claim_C8 :
    (∀ (name : String) (v : Int),
      decodeJson (encodeJson name v) = some (name, v)) ∧
    encodeJson "ESP32" 42 =
      ('\x7b' :: "\"device\":\"ESP32\",\"distance_cm\":42".data) ++
        ['\x7d'] ∧
    encodeJson "ESP32" 0 =
      ('\x7b' :: "\"device\":\"ESP32\",\"distance_cm\":0".data) ++ ['\x7d'] ∧
    encodeJson "ESP32" (-3) =
      ('\x7b' :: "\"device\":\"ESP32\",\"distance_cm\":-3".data) ++
        ['\x7d'] := by
  refine ⟨fun name v => ?_, by decide, by decide, by decide⟩
  unfold decodeJson encodeJson
  rw [jsonMid]
  simp only [List.append_assoc, List.cons_append]
  rw [show jsonPrefix ++
      (escapeString name.data ++ ('"' :: (jsonMidTail ++ (intRepr v ++ [closeBrace])))) =
      jsonPrefix ++ (escapeString name.data ++ '"' :: (jsonMidTail ++ (intRepr v ++ [closeBrace])))
    from rfl]
  rw [dropPfx_append]
  simp only [Option.bind_eq_bind, Option.some_bind]
  rw [parse_escapeString]
  simp only [Option.some_bind]
  rw [dropPfx_append]
  simp only [Option.some_bind]
  rw [takeWhile_append_stop (fun c => c != closeBrace) (intRepr v) closeBrace []
    (intRepr_ne_closeBrace v) (by simp)]
  rw [List.drop_left]
  rw [if_pos rfl, parseIntChars_intRepr]

/-! ## Publishing: `sendJsonToMqttBroker`

The sketch serializes the document twice: once to `Serial` (full message)
and once into `char out[128]` — ArduinoJson writes at most 127 content
bytes plus the terminator into that buffer, truncating anything longer,
and the sketch never checks the written length — then publishes `out` on
`mqtt_topic` and returns `!data_sent`. -/

/-- Observable actions of one `loop()` iteration. -/
inductive Event where
  | logLostWifi
  | wifiConnectAttempt (k : Nat)
  | mqttConnectAttempt (timeMs : Nat) (k : Nat)
  | jsonMirror (payload : List Char)
  | publishAttempt (topic : String) (payload : List Char)
  | logPublishOk
  | logPublishFail
deriving DecidableEq

/-- `serializeJson(doc, buffer)` into a `cap`-byte buffer: at most
`cap - 1` content characters are written (the last byte holds the
terminator); longer output is silently cut. -/
def serializeToBuffer (cap : Nat) (s : List Char) : List Char :=
  s.take (cap - 1)

/-- Embedding of `sendJsonToMqttBroker`: build the two-field document from
`json_device_name` and `hcsr_value`, mirror the full JSON to the
diagnostic sink, publish the 128-byte-buffer serialization on
`mqtt_topic`, and return `!data_sent` (`0` when the publish succeeded).
No error path exists for the encoding step. -/
def sendJsonToMqttBroker (cfg : Config) (hcsr_value : Int)
    (publishOk : Bool) : List Event × Nat :=
  let json := encodeJson cfg.json_device_name hcsr_value
  ([Event.jsonMirror json,
    Event.publishAttempt cfg.mqtt_topic (serializeToBuffer 128 json)],
    if publishOk then 0 else 1)

/-! ## Connectivity Supervisor: `healthCheck` and `loop` -/

/-- Embedding of `healthCheck`: `1` when `WiFi.status() != WL_CONNECTED`,
else `0`.  Only the WiFi link is checked; the MQTT session state is not
consulted. -/
def healthCheck (wifiUp : Bool) : Nat := if wifiUp then 0 else 1

/-- The WiFi-reconnect retry loop of the recovery branch
(`e = connectToWiFi(); while (e) \x7b e = connectToWiFi(); \x7d`, also the
startup shape in `setup`): `env k` is whether the `k`-th `connectToWiFi`
call succeeds; records one attempt event per call, no delay between
calls at the supervisor level, `fuel` bounding the observation of the
unbounded loop. -/
def wifiRetryEvents (env : Nat → Bool) : Nat → Nat → List Event × Bool
  | _, 0 => ([], false)
  | k, fuel + 1 =>
    if env k then ([Event.wifiConnectAttempt k], true)
    else
      let rest := wifiRetryEvents env (k + 1) fuel
      (Event.wifiConnectAttempt k :: rest.1, rest.2)

/-- What the collaborators supply to one `loop()` iteration: the WiFi
status the health check will read, the (never consulted) MQTT session
status, the HC-SR04 measurement — its validity and the `int` result of
`round(getDistanceCm(...))` — the publish outcome, and the outcomes of
the recovery retry calls should recovery run. -/
structure CycleEnv where
  wifiUp : Bool
  sessionUp : Bool
  measuredValid : Bool
  measuredRounded : Int
  publishOk : Bool
  wifiRetry : Nat → Bool
  mqttRetry : Nat → Bool

/-- Embedding of one `loop()` iteration.  The sketch samples the sensor
into `hcsr_value` first (no validity guard — `measuredValid` is ignored,
exactly as the source ignores it), then runs `healthCheck`: on `1` it
logs the loss and runs the recovery sequence — `connectToWiFi` retried
until success, then the `connectToMqtt` retry loop — with no publish; on
`0` it runs `sendJsonToMqttBroker` and logs the outcome. -/
def loopCycle (cfg : Config) (env : CycleEnv) (fuel : Nat) : List Event :=
  if healthCheck env.wifiUp = 1 then
    if (wifiRetryEvents env.wifiRetry 0 fuel).2 then
      Event.logLostWifi ::
        ((wifiRetryEvents env.wifiRetry 0 fuel).1 ++
          (mqttRetryTrace env.mqttRetry 0 0 fuel).1.map
            fun p => Event.mqttConnectAttempt p.1 p.2)
    else Event.logLostWifi :: (wifiRetryEvents env.wifiRetry 0 fuel).1
  else
    (sendJsonToMqttBroker cfg env.measuredRounded env.publishOk).1 ++
      [if (sendJsonToMqttBroker cfg env.measuredRounded env.publishOk).2 = 0
        then Event.logPublishOk else Event.logPublishFail]

/-- The steady-state trace: the `n`-th cycle of `loop()` run forever.
Each iteration of the source loop reassigns `hcsr_value` and
`exit_status_code` before reading them, so a cycle's events depend only
on that cycle's collaborator inputs. -/
def runCycles (cfg : Config) (envs : Nat → CycleEnv) (fuel n : Nat) :
    List (List Event) :=
  (List.range n).map fun i => loopCycle cfg (envs i) fuel

/-! ### Cycle-shape lemmas -/

/-- Unfolding: link lost, WiFi recovery succeeded within `fuel`. -/
theorem loopCycle_down_pos (cfg : Config) (env : CycleEnv) (fuel : Nat)
    (h : env.wifiUp = false)
    (hw : (wifiRetryEvents env.wifiRetry 0 fuel).2 = true) :
    loopCycle cfg env fuel =
      Event.logLostWifi ::
        ((wifiRetryEvents env.wifiRetry 0 fuel).1 ++
          (mqttRetryTrace env.mqttRetry 0 0 fuel).1.map
            fun p => Event.mqttConnectAttempt p.1 p.2) := by
  unfold loopCycle
  rw [if_pos (by rw [h]; rfl), if_pos hw]

/-- Unfolding: link lost, WiFi recovery still retrying at the fuel
bound. -/
theorem loopCycle_down_neg (cfg : Config) (env : CycleEnv) (fuel : Nat)
    (h : env.wifiUp = false)
    (hw : (wifiRetryEvents env.wifiRetry 0 fuel).2 = false) :
    loopCycle cfg env fuel =
      Event.logLostWifi :: (wifiRetryEvents env.wifiRetry 0 fuel).1 := by
  unfold loopCycle
  rw [if_pos (by rw [h]; rfl), if_neg (by rw [hw]; exact Bool.false_ne_true)]

/-- Unfolding: link healthy — encode, mirror, publish, log. -/
theorem loopCycle_up (cfg : Config) (env : CycleEnv) (fuel : Nat)
    (h : env.wifiUp = true) :
    loopCycle cfg env fuel =
      [Event.jsonMirror (encodeJson cfg.json_device_name env.measuredRounded),
       Event.publishAttempt cfg.mqtt_topic
         (serializeToBuffer 128
           (encodeJson cfg.json_device_name env.measuredRounded)),
       if env.publishOk then Event.logPublishOk else Event.logPublishFail] := by
  unfold loopCycle
  rw [if_neg (by rw [h]; simp [healthCheck])]
  unfold sendJsonToMqttBroker
  by_cases hp : env.publishOk = true
  · rw [hp]
    simp
  · have hp0 : env.publishOk = false := by simpa using hp
    rw [hp0]
    simp

/-- Every event the WiFi retry loop emits is a `wifiConnectAttempt`. -/
theorem wifiRetryEvents_shape (env : Nat → Bool) :
    ∀ fuel k e, e ∈ (wifiRetryEvents env k fuel).1 →
      ∃ j, e = Event.wifiConnectAttempt j := by
  intro fuel
  induction fuel with
  | zero => intro k e h; simp [wifiRetryEvents] at h
  | succ n ih =>
    intro k e h
    unfold wifiRetryEvents at h
    by_cases hk : env k = true
    · rw [if_pos hk] at h
      simp at h
      exact ⟨k, h⟩
    · rw [if_neg hk] at h
      rcases List.mem_cons.mp h with h1 | h2
      · exact ⟨k, h1⟩
      · exact ih (k + 1) e h2

/-- The WiFi retry loop makes at least one attempt when observed at
all. -/
theorem wifiRetryEvents_ne_nil (env : Nat → Bool) (fuel k : Nat)
    (h : 0 < fuel) : (wifiRetryEvents env k fuel).1 ≠ [] := by
  match fuel, h with
  | n + 1, _ =>
    unfold wifiRetryEvents
    by_cases hk : env k = true
    · rw [if_pos hk]; simp
    · rw [if_neg hk]; simp

/-- A lost-link cycle makes no publish attempt. -/
theorem loopCycle_down_no_publish (cfg : Config) (env : CycleEnv)
    (fuel : Nat) (h : env.wifiUp = false) :
    ∀ t p, Event.publishAttempt t p ∉ loopCycle cfg env fuel := by
  intro t p hmem
  by_cases hw : (wifiRetryEvents env.wifiRetry 0 fuel).2 = true
  · rw [loopCycle_down_pos cfg env fuel h hw] at hmem
    rcases List.mem_cons.mp hmem with h1 | h2
    · cases h1
    · rcases List.mem_append.mp h2 with h3 | h4
      · rcases wifiRetryEvents_shape env.wifiRetry fuel 0 _ h3 with ⟨j, hj⟩
        cases hj
      · rcases List.mem_map.mp h4 with ⟨q, _, hq⟩
        cases hq
  · rw [loopCycle_down_neg cfg env fuel h (by simpa using hw)] at hmem
    rcases List.mem_cons.mp hmem with h1 | h2
    · cases h1
    · rcases wifiRetryEvents_shape env.wifiRetry fuel 0 _ h2 with ⟨j, hj⟩
      cases hj

/-! ## Claim theorems: supervisor behavior -/

/-- C1: in a steady-state cycle, a lost-link health check triggers the
recovery sequence — the loss log, then WiFi reconnect attempts, then (once
the link recovered) MQTT session reconnect attempts — and no publish
attempt is made that cycle; a publish attempt occurs in a cycle only when
the health check passed, and a healthy cycle does publish. -/
theorem claim_C1 (cfg : Config) (env : CycleEnv) (fuel : Nat)
    (hfuel : 0 < fuel) :
    (∀ t p, Event.publishAttempt t p ∈ loopCycle cfg env fuel →
      env.wifiUp = true) ∧
    (env.wifiUp = false →
      (∀ t p, Event.publishAttempt t p ∉ loopCycle cfg env fuel) ∧
      (∃ wtrace mtrace,
        loopCycle cfg env fuel = Event.logLostWifi :: (wtrace ++ mtrace) ∧
        wtrace ≠ [] ∧
        (∀ e ∈ wtrace, ∃ k, e = Event.wifiConnectAttempt k) ∧
        (∀ e ∈ mtrace, ∃ tm k, e = Event.mqttConnectAttempt tm k))) ∧
    (env.wifiUp = true →
      Event.publishAttempt cfg.mqtt_topic
        (serializeToBuffer 128
          (encodeJson cfg.json_device_name env.measuredRounded)) ∈
        loopCycle cfg env fuel) := by
  refine ⟨?_, ?_, ?_⟩
  · intro t p hmem
    by_cases h : env.wifiUp = true
    · exact h
    · exact absurd hmem
        (loopCycle_down_no_publish cfg env fuel (by simpa using h) t p)
  · intro h
    refine ⟨loopCycle_down_no_publish cfg env fuel h, ?_⟩
    by_cases hw : (wifiRetryEvents env.wifiRetry 0 fuel).2 = true
    · refine ⟨(wifiRetryEvents env.wifiRetry 0 fuel).1,
        (mqttRetryTrace env.mqttRetry 0 0 fuel).1.map
          (fun p => Event.mqttConnectAttempt p.1 p.2),
        loopCycle_down_pos cfg env fuel h hw,
        wifiRetryEvents_ne_nil env.wifiRetry fuel 0 hfuel,
        wifiRetryEvents_shape env.wifiRetry fuel 0, ?_⟩
      intro e he
      rcases List.mem_map.mp he with ⟨q, _, hq⟩
      exact ⟨q.1, q.2, hq.symm⟩
    · refine ⟨(wifiRetryEvents env.wifiRetry 0 fuel).1, [], ?_,
        wifiRetryEvents_ne_nil env.wifiRetry fuel 0 hfuel,
        wifiRetryEvents_shape env.wifiRetry fuel 0, by simp⟩
      rw [loopCycle_down_neg cfg env fuel h (by simpa using hw)]
      simp
  · intro h
    rw [loopCycle_up cfg env fuel h]
    simp

/-- The concrete lost-link cycle environment used to instantiate C1. -/
def envC1 : CycleEnv :=
  { wifiUp := false, sessionUp := false, measuredValid := true
    measuredRounded := 7, publishOk := true
    wifiRetry := fun _ => true, mqttRetry := fun _ => true }

/-- C1 witness: a concrete lost-link cycle makes no publish attempt. -/
theorem claim_C1_witness :
    Event.publishAttempt "garage_sensor" [] ∉
      loopCycle sourceConfig envC1 1 := by
  have h := claim_C1 sourceConfig envC1 1 (by decide)
  exact (h.2.1 rfl).1 "garage_sensor" []

/-- The concrete cycle environment refuting C2: WiFi up, MQTT session
down. -/
def envC2 : CycleEnv :=
  { wifiUp := true, sessionUp := false, measuredValid := true
    measuredRounded := 42, publishOk := false
    wifiRetry := fun _ => true, mqttRetry := fun _ => true }

/-- C2 counterexample: in the reachable steady-state cycle whose
environment is `envC2` — link up, session reported disconnected — the
supervisor still makes a publish attempt, so a publish attempt is not
gated on the Session Manager reporting connected. -/
theorem claim_C2_counterexample :
    envC2.sessionUp = false ∧
    runCycles sourceConfig (fun _ => envC2) 1 1 =
      [loopCycle sourceConfig envC2 1] ∧
    Event.publishAttempt "garage_sensor"
        (serializeToBuffer 128 (encodeJson "ESP32" 42)) ∈
      loopCycle sourceConfig envC2 1 := by
  refine ⟨rfl, rfl, ?_⟩
  rw [loopCycle_up sourceConfig envC2 1 rfl]
  simp [sourceConfig, envC2]

/-- C2 amended: in every reachable cycle of the steady-state trace, a
publish attempt is made exactly when the link health check passed that
cycle; the Session Manager's connectivity is never consulted, so session
connectivity does not gate publishing (the attempt simply fails inside
the broker client when the session is down). -/
theorem claim_C2_amended (cfg : Config) (envs : Nat → CycleEnv)
    (fuel n m : Nat) (h : n < m) :
    (runCycles cfg envs fuel m)[n]? =
      some (loopCycle cfg (envs n) fuel) ∧
    ((∃ t p, Event.publishAttempt t p ∈ loopCycle cfg (envs n) fuel) ↔
      (envs n).wifiUp = true) := by
  constructor
  · unfold runCycles
    simp [h]
  · constructor
    · rintro ⟨t, p, hmem⟩
      by_cases hup : (envs n).wifiUp = true
      · exact hup
      · exact absurd hmem
          (loopCycle_down_no_publish cfg (envs n) fuel (by simpa using hup) t p)
    · intro hup
      refine ⟨cfg.mqtt_topic,
        serializeToBuffer 128
          (encodeJson cfg.json_device_name (envs n).measuredRounded), ?_⟩
      rw [loopCycle_up cfg (envs n) fuel hup]
      simp

/-- C2 amended witness: the concrete session-down cycle, on which the
publish attempt is made because the link health check passed. -/
theorem claim_C2_amended_witness :
    (runCycles sourceConfig (fun _ => envC2) 1 1)[0]? =
      some (loopCycle sourceConfig envC2 1) ∧
    ((∃ t p, Event.publishAttempt t p ∈ loopCycle sourceConfig envC2 1) ↔
      envC2.wifiUp = true) :=
  claim_C2_amended sourceConfig (fun _ => envC2) 1 0 1 (by decide)

/-- The concrete invalid-measurement cycle environment: the HC-SR04
returns no echo, so the measured double is not a valid distance
(`measuredValid = false`); `round` still yields some `int` (modelled
as 0), WiFi is up, and the broker accepts the publish. -/
def envC7 : CycleEnv :=
  { wifiUp := true, sessionUp := true, measuredValid := false
    measuredRounded := 0, publishOk := true
    wifiRetry := fun _ => true, mqttRetry := fun _ => true }

/-- C7: the sketch has no validity guard on the sensor path — in the
concrete invalid-measurement cycle `envC7` the supervisor encodes and
publishes the garbage value anyway (one mirror, one publish attempt, one
success log), instead of marking the reading invalid, skipping the
publish and logging a diagnostic as the claim requires. -/
theorem claim_C7_code_divergence :
    envC7.measuredValid = false ∧
    loopCycle sourceConfig envC7 1 =
      [Event.jsonMirror (encodeJson "ESP32" 0),
       Event.publishAttempt "garage_sensor"
         (serializeToBuffer 128 (encodeJson "ESP32" 0)),
       Event.logPublishOk] := by
  refine ⟨rfl, ?_⟩
  rw [loopCycle_up sourceConfig envC7 1 rfl]
  rfl

/-- A device name long enough that the encoded message exceeds the
128-byte publish buffer. -/
def longName : String := String.mk (List.replicate 150 'a')

/-- The source configuration with the long device name substituted. -/
def longNameConfig : Config :=
  { sourceConfig with json_device_name := longName }

set_option maxRecDepth 4000 in
/-- C9 counterexample: with a device name making the encoded message
exceed the 128-byte buffer, the encoding step does not fail loudly — the
call reports overall success (status 0), emits no error event, and
publishes the silently truncated first 127 bytes, which differ from the
encoded message. -/
theorem claim_C9_counterexample :
    127 < (encodeJson longName 42).length ∧
    (sendJsonToMqttBroker longNameConfig 42 true).2 = 0 ∧
    (sendJsonToMqttBroker longNameConfig 42 true).1 =
      [Event.jsonMirror (encodeJson longName 42),
       Event.publishAttempt "garage_sensor"
         (serializeToBuffer 128 (encodeJson longName 42))] ∧
    serializeToBuffer 128 (encodeJson longName 42) ≠
      encodeJson longName 42 := by
  refine ⟨by decide, rfl, rfl, by decide⟩

/-- C9 amended: the encoding step never fails: the full message always
goes to the diagnostic mirror, the publish payload is always the first
127 bytes of the encoded message (silent truncation when longer), and the
returned status reflects only the publish outcome, never an encoding
error. -/
theorem claim_C9_amended (cfg : Config) (v : Int) (ok : Bool) :
    (sendJsonToMqttBroker cfg v ok).1 =
      [Event.jsonMirror (encodeJson cfg.json_device_name v),
       Event.publishAttempt cfg.mqtt_topic
         ((encodeJson cfg.json_device_name v).take 127)] ∧
    ((sendJsonToMqttBroker cfg v ok).2 = 0 ↔ ok = true) := by
  constructor
  · rfl
  · unfold sendJsonToMqttBroker
    by_cases hok : ok = true
    · rw [hok]
      simp
    · have hok0 : ok = false := by simpa using hok
      rw [hok0]
      simp

/-- C10: every `connectToMqtt` call presents `mqtt_topic` as the broker
client identifier, and every publish attempt of `sendJsonToMqttBroker`
goes out on that same topic — the client id always equals the publish
topic, with no independent client-id configuration. -/
theorem claim_C10 (cfg : Config) (menv : MqttEnv) (v : Int) (ok : Bool) :
    (connectToMqtt cfg menv).clientId = cfg.mqtt_topic ∧
    (∀ t p, Event.publishAttempt t p ∈ (sendJsonToMqttBroker cfg v ok).1 →
      t = (connectToMqtt cfg menv).clientId) := by
  have hcid : (connectToMqtt cfg menv).clientId = cfg.mqtt_topic := by
    unfold connectToMqtt
    split <;> rfl
  refine ⟨hcid, fun t p hmem => ?_⟩
  rw [hcid]
  rcases List.mem_cons.mp hmem with h1 | h2
  · cases h1
  · rcases List.mem_cons.mp h2 with h3 | h4
    · cases h3
      rfl
    · simp at h4

/-- C10 witness: at the source configuration, the topic of the concrete
publish event equals the client id handed to the broker. -/
theorem claim_C10_witness :
    "garage_sensor" =
      (connectToMqtt sourceConfig { connectOk := true, stateCode := 0 }).clientId := by
  have h := claim_C10 sourceConfig { connectOk := true, stateCode := 0 } 42 true
  exact h.2 "garage_sensor" (serializeToBuffer 128 (encodeJson "ESP32" 42))
    (by rw [show (sendJsonToMqttBroker sourceConfig 42 true).1 =
        [Event.jsonMirror (encodeJson "ESP32" 42),
         Event.publishAttempt "garage_sensor"
           (serializeToBuffer 128 (encodeJson "ESP32" 42))] from rfl]; simp)

end Esp32
